import Mathlib

/-!
Verification of the original logic of `src/process_analyzer.py` (class
`ProcessAnalyzer`): the log normalizer (`load_and_convert_log`), the linear
BPMN flow synthesizer (`generate_bpmn_xml_content`), the bottleneck list
builder (`identify_bottlenecks`) and the report templater
(`generate_sankhya_flow_script`).  Third-party behaviour (pandas, pm4py,
bpmn_python serialization) is out of scope per the specification; where a
contract depends on it, the definition is marked `Modelled from the spec`.
-/

namespace ProcessAnalyzer

/-! ## Generic string helpers

The Python operations `sub in s`, `s.split(sep)[k]` and `s.strip()` are
embedded as structural functions on `List Char` so that every definition is
executable and kernel-reducible. -/

/-- Python substring membership `sep in s` on character lists: true iff `sep`
occurs as a contiguous sublist. -/
def containsSub (sep : List Char) : List Char → Bool
  | [] => sep.isEmpty
  | c :: rest => sep.isPrefixOf (c :: rest) || containsSub sep rest

/-- Python substring membership test on strings: `strContains s sep` is the
embedding of the Python expression `sep in s`. -/
def strContains (s sep : String) : Bool :=
  containsSub sep.data s.data

/-- Leftmost split: `splitFirst sep s = some (pre, post)` when `sep` first
occurs in `s` with `s = pre ++ sep ++ post`, and `none` when `sep` does not
occur.  This is the single step underlying the Python `s.split(sep)`
non-overlapping left-to-right scan. -/
def splitFirst (sep : List Char) : List Char → Option (List Char × List Char)
  | [] => if sep.isPrefixOf ([] : List Char) then some ([], List.drop sep.length []) else none
  | c :: rest =>
    if sep.isPrefixOf (c :: rest) then some ([], List.drop sep.length (c :: rest))
    else
      match splitFirst sep rest with
      | some (pre, post) => some (c :: pre, post)
      | none => none

/-- Embedding of the Python expression `s.split(sep)[0]`: the part of `s`
before the first occurrence of `sep`, or all of `s` when `sep` does not
occur. -/
def beforeFirst (sep : String) (s : String) : String :=
  match splitFirst sep.data s.data with
  | some (pre, _) => String.mk pre
  | none => s

/-- Embedding of the Python expression `s.strip()`: drop leading and trailing
whitespace characters. -/
def pyStrip (s : String) : String :=
  String.mk (((s.data.dropWhile Char.isWhitespace).reverse.dropWhile Char.isWhitespace).reverse)

/-- String append is associative; used to regroup the concatenations of the
report templater. -/
theorem strAppend_assoc (a b c : String) : (a ++ b) ++ c = a ++ (b ++ c) :=
  congrArg String.mk (List.append_assoc a.data b.data c.data)

/-- Appending the empty string on the right is the identity. -/
theorem strAppend_empty (s : String) : s ++ "" = s :=
  congrArg String.mk (List.append_nil s.data)

/-- Unfolding lemma for the character data of an append. -/
theorem strData_append (a b : String) : (a ++ b).data = a.data ++ b.data := rfl

/-- If `containsSub sep s` is false then `sep` does not occur in `s`: the
leftmost split finds nothing. -/
theorem splitFirst_eq_none_of_containsSub_false (sep : List Char) :
    ∀ s : List Char, containsSub sep s = false → splitFirst sep s = none := by
  intro s
  induction s with
  | nil =>
    intro h
    have hne : sep.isPrefixOf ([] : List Char) = false := by
      cases sep with
      | nil => simp [containsSub, List.isEmpty] at h
      | cons a t => simp [List.isPrefixOf]
    simp [splitFirst, hne]
  | cons c rest ih =>
    intro h
    simp only [containsSub, Bool.or_eq_false_iff] at h
    obtain ⟨h1, h2⟩ := h
    simp [splitFirst, h1, ih h2]

/-- If `containsSub sep s` is false then `sep` is not a contiguous sublist of
`s`. -/
theorem not_infix_of_containsSub_false (sep s : List Char)
    (h : containsSub sep s = false) : ¬ sep <:+: s := by
  induction s with
  | nil =>
    intro hinf
    have : sep = [] := List.eq_nil_of_infix_nil hinf
    subst this
    simp [containsSub, List.isEmpty] at h
  | cons c rest ih =>
    intro hinf
    simp only [containsSub, Bool.or_eq_false_iff] at h
    obtain ⟨h1, h2⟩ := h
    rcases List.infix_cons_iff.mp hinf with hpre | hinf2
    · rw [← List.isPrefixOf_iff_prefix] at hpre
      simp [hpre] at h1
    · exact ih h2 hinf2

/-- When `sep` does not occur in `s`, the Python expression `s.split(sep)[0]`
returns `s` itself. -/
theorem beforeFirst_of_not_contains (sep s : String)
    (h : strContains s sep = false) : beforeFirst sep s = s := by
  unfold beforeFirst
  rw [splitFirst_eq_none_of_containsSub_false sep.data s.data h]

/-! ## Report templater (`generate_sankhya_flow_script`, src lines 111-134)

Each string literal below is the exact text built by the Python source;
braces are written with the escapes `\x7b`/`\x7d` and apostrophes with
`\x27`. -/

/-- Header line written first (src line 112). -/
def header1 : String := "// Script de Automa\u00e7\u00e3o Sankhya Flow gerado por IA\n\n"

/-- Second header comment (src line 113). -/
def header2 : String := "// Este script pode ser usado para automatizar otimiza\u00e7\u00f5es de processos identificadas.\n\n"

/-- Line opening the non-empty branch (src line 116). -/
def gargalosHeader : String := "// Gargalos identificados e sugest\u00f5es de otimiza\u00e7\u00e3o:\n"

/-- Line emitted by the empty branch (src line 131). -/
def noBottleneckLine : String := "// Nenhum gargalo significativo identificado para gerar automa\u00e7\u00f5es.\n"

/-- Fixed footer comment (src line 133). -/
def footerLine : String := "// Para mais informa\u00e7\u00f5es sobre as APIs JavaScript do Sankhya, consulte a documenta\u00e7\u00e3o oficial.\n"

/-- Literal activity marker tested by `generate_sankhya_flow_script`
(src line 119). -/
def markerStr : String := "Atividade: "

/-- Embedding of the Python expression
`bottleneck.split("Atividade: ")[1]` (src line 120): the segment of the line
between the first occurrence of the marker and its next occurrence (or the
end of the string).  It is only evaluated under the containment guard; when
the marker is absent it returns the empty string (the Python expression
would raise an IndexError there, but the guard makes that unreachable). -/
def segmentAfterMarker (s : String) : String :=
  match splitFirst markerStr.data s.data with
  | some (_, post) => beforeFirst markerStr (String.mk post)
  | none => ""

/-- Embedding of the full extraction expression on src line 120:
`bottleneck.split("Atividade: ")[1].split(",")[0].strip()`. -/
def extractName (s : String) : String :=
  pyStrip (beforeFirst "," (segmentAfterMarker s))

/-- Template line 1 (src line 121). -/
def exampleLine (n : String) : String :=
  "// Exemplo de automa\u00e7\u00e3o para a atividade \x27" ++ n ++ "\x27:\n"

/-- Template line 2 (src line 122). -/
def varQueryLine : String := "// var query = getQuery();\n"

/-- Template query line (src line 123). -/
def queryLine (n : String) : String :=
  "// query.nativeSelect(\"SELECT * FROM TGFTAB WHERE DESCRICAO = \\\x27" ++ n ++ "\\\x27\");\n"

/-- Template conditional opener (src line 124). -/
def ifLine : String := "// if (query.next()) \x7b \n"

/-- Template message line inside the conditional branch (src line 125). -/
def mensagemLine (n : String) : String :=
  "//     mensagem = \x27Atividade " ++ n ++ " encontrada. Iniciando otimiza\u00e7\u00e3o...\x27;\n"

/-- Template placeholder comment (src line 126). -/
def addLogicLine : String :=
  "//     // Adicione aqui a l\u00f3gica de automa\u00e7\u00e3o espec\u00edfica para a otimiza\u00e7\u00e3o desta atividade\n"

/-- Template else opener (src line 127). -/
def elseLine : String := "// \x7d else \x7b \n"

/-- Template error-reporting line (src line 128). -/
def erroLine (n : String) : String :=
  "//     mostraErro(\x27Atividade " ++ n ++ " n\u00e3o encontrada para otimiza\u00e7\u00e3o.\x27);\n"

/-- Template closing line (src line 129). -/
def closeLine : String := "// \x7d\n\n"

/-- The fixed commented pseudo-code template emitted for one extracted
activity name (src lines 121-129). -/
def activityTemplate (n : String) : String :=
  exampleLine n ++ varQueryLine ++ queryLine n ++ ifLine ++ mensagemLine n ++ addLogicLine ++ elseLine ++ erroLine n ++ closeLine

/-- Per-line output of the loop body (src lines 117-129): the line echoed as
a comment, followed by the template when the line contains the marker. -/
def bottleneckBlock (b : String) : String :=
  "// " ++ b ++ "\n" ++ (if strContains b markerStr then activityTemplate (extractName b) else "")

/-- Concatenated loop output over the whole bottleneck list. -/
def bottlenecksBody : List String → String
  | [] => ""
  | b :: rest => bottleneckBlock b ++ bottlenecksBody rest

/-- Embedding of `ProcessAnalyzer.generate_sankhya_flow_script`
(src lines 111-134).  The Python truthiness test `if bottlenecks:` is the
non-emptiness test on the list. -/
def generate_sankhya_flow_script (bottlenecks : List String) : String :=
  header1 ++ header2 ++
    (if bottlenecks.isEmpty then noBottleneckLine
     else gargalosHeader ++ bottlenecksBody bottlenecks) ++
    footerLine

/-- C6: for every bottleneck line list, the rendered report starts with the
fixed header line and ends with the fixed footer comment line. -/
theorem sankhya_framing (bs : List String) :
    header1.data <+: (generate_sankhya_flow_script bs).data ∧
      footerLine.data <:+ (generate_sankhya_flow_script bs).data := by
  constructor
  · refine ⟨(header2 ++ (if bs.isEmpty then noBottleneckLine else gargalosHeader ++ bottlenecksBody bs) ++ footerLine).data, ?_⟩
    simp [generate_sankhya_flow_script, strData_append, List.append_assoc]
  · refine ⟨(header1 ++ header2 ++ (if bs.isEmpty then noBottleneckLine else gargalosHeader ++ bottlenecksBody bs)).data, ?_⟩
    simp [generate_sankhya_flow_script, strData_append, List.append_assoc]

/-- C7: on the empty bottleneck list the report is exactly the header block,
the single no-bottleneck comment line, and the footer. -/
theorem sankhya_empty_report :
    generate_sankhya_flow_script [] = header1 ++ header2 ++ noBottleneckLine ++ footerLine := by
  rfl

/-- An infix of the right part of an append is an infix of the append. -/
theorem infix_append_of_right {α : Type} {l t : List α} (s : List α)
    (h : l <:+: t) : l <:+: s ++ t := by
  rcases h with ⟨u, v, rfl⟩
  exact ⟨s ++ u, v, by simp⟩

/-- An infix of the left part of an append is an infix of the append. -/
theorem infix_append_of_left {α : Type} {l t : List α} (s : List α)
    (h : l <:+: t) : l <:+: t ++ s := by
  rcases h with ⟨u, v, rfl⟩
  exact ⟨u, v ++ s, by simp⟩

/-- The loop output for a member line occurs inside the concatenated loop
output. -/
theorem block_infix_body {b : String} {bs : List String} (hb : b ∈ bs) :
    (bottleneckBlock b).data <:+: (bottlenecksBody bs).data := by
  induction bs with
  | nil => cases hb
  | cons x rest ih =>
    rcases List.mem_cons.mp hb with rfl | hmem
    · exact infix_append_of_left _ (List.infix_refl _) |>.trans
        (by rw [bottlenecksBody, strData_append])
    · have := infix_append_of_right (bottleneckBlock x).data (ih hmem)
      rw [bottlenecksBody, strData_append]
      exact this

/-- The query line occurs inside the template for its name. -/
theorem queryLine_infix_template (n : String) :
    (queryLine n).data <:+: (activityTemplate n).data :=
  ⟨(exampleLine n).data ++ varQueryLine.data,
    ifLine.data ++ (mensagemLine n).data ++ addLogicLine.data ++ elseLine.data ++
      (erroLine n).data ++ closeLine.data,
    by simp [activityTemplate, strData_append, List.append_assoc]⟩

/-- The conditional-branch message line occurs inside the template for its
name. -/
theorem mensagemLine_infix_template (n : String) :
    (mensagemLine n).data <:+: (activityTemplate n).data :=
  ⟨(exampleLine n).data ++ varQueryLine.data ++ (queryLine n).data ++ ifLine.data,
    addLogicLine.data ++ elseLine.data ++ (erroLine n).data ++ closeLine.data,
    by simp [activityTemplate, strData_append, List.append_assoc]⟩

/-- The error-reporting line occurs inside the template for its name. -/
theorem erroLine_infix_template (n : String) :
    (erroLine n).data <:+: (activityTemplate n).data :=
  ⟨(exampleLine n).data ++ varQueryLine.data ++ (queryLine n).data ++ ifLine.data ++
      (mensagemLine n).data ++ addLogicLine.data ++ elseLine.data,
    closeLine.data,
    by simp [activityTemplate, strData_append, List.append_assoc]⟩

/-- When the line contains the marker, its template occurs inside its loop
output. -/
theorem template_infix_block {b : String} (hm : strContains b markerStr = true) :
    (activityTemplate (extractName b)).data <:+: (bottleneckBlock b).data := by
  rw [bottleneckBlock, if_pos hm]
  exact infix_append_of_right _ (List.infix_refl _) |>.trans (by rw [strData_append])

/-- The loop output of any member line occurs inside the rendered report. -/
theorem block_infix_report {b : String} {bs : List String} (hb : b ∈ bs) :
    (bottleneckBlock b).data <:+: (generate_sankhya_flow_script bs).data := by
  have hne : bs.isEmpty = false := by
    cases bs with
    | nil => cases hb
    | cons x rest => rfl
  rcases block_infix_body hb with ⟨u, v, huv⟩
  have hdata : (generate_sankhya_flow_script bs).data =
      header1.data ++ (header2.data ++ (gargalosHeader.data ++
        ((bottlenecksBody bs).data ++ footerLine.data))) := by
    rw [generate_sankhya_flow_script, hne]
    simp [strData_append, List.append_assoc]
  rw [hdata, ← huv]
  exact ⟨header1.data ++ (header2.data ++ (gargalosHeader.data ++ u)),
    v ++ footerLine.data, by simp [List.append_assoc]⟩

/-- C1 (amended): the activity marker in the code is the Portuguese literal
`Atividade: `.  For every bottleneck line of the input that contains this
marker, the rendered report contains the templated query line, the
conditional-branch message line and the error-reporting line, each
referencing the extracted activity name (the text between the marker and the
next comma, whitespace-trimmed). -/
theorem sankhya_template_references_name (bs : List String) (b : String)
    (hb : b ∈ bs) (hm : strContains b markerStr = true) :
    (queryLine (extractName b)).data <:+: (generate_sankhya_flow_script bs).data ∧
      (mensagemLine (extractName b)).data <:+: (generate_sankhya_flow_script bs).data ∧
      (erroLine (extractName b)).data <:+: (generate_sankhya_flow_script bs).data := by
  have hblock := block_infix_report hb
  have htpl := template_infix_block hm
  exact ⟨((queryLine_infix_template _).trans htpl).trans hblock,
    ((mensagemLine_infix_template _).trans htpl).trans hblock,
    ((erroLine_infix_template _).trans htpl).trans hblock⟩

set_option maxRecDepth 4000 in
/-- C1 witness: the scenario input written with the actual marker of the
code.  The extracted name is `Approve` and the report contains the three
templated lines referencing it. -/
theorem sankhya_template_references_name_witness :
    ("Atividade: Approve, Avg Wait: 3.2, Avg Service: 1.1" ∈
        ["Atividade: Approve, Avg Wait: 3.2, Avg Service: 1.1"]) ∧
      strContains "Atividade: Approve, Avg Wait: 3.2, Avg Service: 1.1" markerStr = true ∧
      extractName "Atividade: Approve, Avg Wait: 3.2, Avg Service: 1.1" = "Approve" ∧
      ((queryLine (extractName "Atividade: Approve, Avg Wait: 3.2, Avg Service: 1.1")).data <:+:
          (generate_sankhya_flow_script
            ["Atividade: Approve, Avg Wait: 3.2, Avg Service: 1.1"]).data ∧
        (mensagemLine (extractName "Atividade: Approve, Avg Wait: 3.2, Avg Service: 1.1")).data <:+:
          (generate_sankhya_flow_script
            ["Atividade: Approve, Avg Wait: 3.2, Avg Service: 1.1"]).data ∧
        (erroLine (extractName "Atividade: Approve, Avg Wait: 3.2, Avg Service: 1.1")).data <:+:
          (generate_sankhya_flow_script
            ["Atividade: Approve, Avg Wait: 3.2, Avg Service: 1.1"]).data) :=
  ⟨by decide, by decide, by decide,
    sankhya_template_references_name _ _ (by decide) (by decide)⟩

set_option maxRecDepth 100000 in
/-- C1 counterexample: on the spec scenario input, whose line carries the
English marker `Activity: `, the guard of the code is false and the rendered
report contains no templated query line referencing `Approve`. -/
theorem sankhya_english_marker_not_templated :
    strContains "Activity: Approve, Avg Wait: 3.2, Avg Service: 1.1" markerStr = false ∧
      ¬ (queryLine "Approve").data <:+:
          (generate_sankhya_flow_script
            ["Activity: Approve, Avg Wait: 3.2, Avg Service: 1.1"]).data :=
  ⟨by decide,
    not_infix_of_containsSub_false _ _ (by decide)⟩

/-- Written from the wording of the spec for comparison (C8): the entire
remainder of the string after the first occurrence of the marker, with no
further processing.  The code is compared against this definition. -/
def specRawRemainder (s : String) : String :=
  match splitFirst markerStr.data s.data with
  | some (_, post) => String.mk post
  | none => ""

/-- When the marker does not reoccur and no comma follows, the extracted
name is the whitespace-trimmed remainder after the marker. -/
theorem extractName_eq_strip_of_single (b : String)
    (h2 : strContains (specRawRemainder b) markerStr = false)
    (h3 : strContains (specRawRemainder b) "," = false) :
    extractName b = pyStrip (specRawRemainder b) := by
  unfold specRawRemainder at h2 h3 ⊢
  unfold extractName segmentAfterMarker
  cases hsp : splitFirst markerStr.data b.data with
  | none =>
    simp only [hsp]
    rfl
  | some pp =>
    obtain ⟨pre, post⟩ := pp
    rw [hsp] at h2 h3
    simp only [hsp]
    rw [beforeFirst_of_not_contains _ _ h2, beforeFirst_of_not_contains _ _ h3]

/-- C8 (amended): for every line in which the marker occurs exactly once and
no comma follows it, extraction is non-fatal and falls back to the remainder
of the string after the marker trimmed of surrounding whitespace, and the
run still produces the complete report: header block, loop header, the line
echoed as a comment, the full template for the extracted name, and the
footer. -/
theorem sankhya_no_comma_graceful (b : String)
    (h1 : strContains b markerStr = true)
    (h2 : strContains (specRawRemainder b) markerStr = false)
    (h3 : strContains (specRawRemainder b) "," = false) :
    extractName b = pyStrip (specRawRemainder b) ∧
      generate_sankhya_flow_script [b] =
        header1 ++ header2 ++ gargalosHeader ++ ("// " ++ b ++ "\n") ++
          activityTemplate (extractName b) ++ footerLine := by
  refine ⟨extractName_eq_strip_of_single b h2 h3, ?_⟩
  have hbody : bottlenecksBody [b] = bottleneckBlock b := by
    rw [bottlenecksBody, bottlenecksBody, strAppend_empty]
  rw [generate_sankhya_flow_script]
  simp only [List.isEmpty_cons, Bool.false_eq_true, if_false]
  rw [hbody, bottleneckBlock, if_pos h1]
  simp [strAppend_assoc]

set_option maxRecDepth 4000 in
/-- C8 witness: a line with the marker once and no trailing comma; the name
falls back to the trimmed remainder `Approve` and the full report is
rendered. -/
theorem sankhya_no_comma_graceful_witness :
    strContains "Atividade: Approve" markerStr = true ∧
      strContains (specRawRemainder "Atividade: Approve") markerStr = false ∧
      strContains (specRawRemainder "Atividade: Approve") "," = false ∧
      specRawRemainder "Atividade: Approve" = "Approve" ∧
      (extractName "Atividade: Approve" =
          pyStrip (specRawRemainder "Atividade: Approve") ∧
        generate_sankhya_flow_script ["Atividade: Approve"] =
          header1 ++ header2 ++ gargalosHeader ++
            ("// " ++ "Atividade: Approve" ++ "\n") ++
            activityTemplate (extractName "Atividade: Approve") ++ footerLine) :=
  ⟨by decide, by decide, by decide, by decide,
    sankhya_no_comma_graceful _ (by decide) (by decide) (by decide)⟩

set_option maxRecDepth 4000 in
/-- C8 counterexample: a line containing the marker twice and no comma.  The
entire remainder after the marker is `A Atividade: B `, but the code
extracts `A`: the extraction truncates at the next marker occurrence and
strips whitespace, so the name is not the raw suffix. -/
theorem sankhya_not_raw_suffix :
    strContains "Atividade: A Atividade: B " markerStr = true ∧
      strContains "Atividade: A Atividade: B " "," = false ∧
      specRawRemainder "Atividade: A Atividade: B " = "A Atividade: B " ∧
      extractName "Atividade: A Atividade: B " = "A" ∧
      extractName "Atividade: A Atividade: B " ≠
        specRawRemainder "Atividade: A Atividade: B " := by
  refine ⟨by decide, by decide, by decide, by decide, by decide⟩

/-! ## Linear flow synthesizer (`generate_bpmn_xml_content`, src lines 81-109)

The function receives the first-seen-unique activity labels of the event log
(`self.event_log["concept:name"].unique()`, src line 90) and builds the node
and edge structure of the BPMN diagram.  The XML serialization performed by
`bpmn_python` is third-party and out of scope per spec section 1; the
embedding keeps the constructed graph, with nodes identified the way the
source identifies them (task id = activity label, plus the two fixed event
ids). -/

/-- Identifier of the start event node (src line 94). -/
def startId : String := "StartEvent_1"

/-- Identifier of the end event node (src line 98). -/
def endId : String := "EndEvent_1"

/-- The node and sequence-flow structure built into the BPMN diagram. -/
structure BpmnFlow where
  nodes : List String
  edges : List (String × String)
deriving DecidableEq

/-- Embedding of the loop on src lines 104-105: one edge per index of
`range(len(activities) - 1)`, from `activities[i]` to `activities[i+1]`. -/
def consecutiveEdges (acts : List String) : List (String × String) :=
  (List.range (acts.length - 1)).map fun i => (acts.getD i "", acts.getD (i + 1) "")

/-- Embedding of `ProcessAnalyzer.generate_bpmn_xml_content`
(src lines 81-109): tasks are added in order, then the start and end events;
edges are added only when the activity list is non-empty (src line 102),
mirroring the indexing `activities[0]`, `activities[i]`, `activities[i+1]`,
`activities[-1]` of the source. -/
def generate_bpmn_xml_content (acts : List String) : BpmnFlow where
  nodes := acts ++ [startId, endId]
  edges :=
    if 0 < acts.length then
      (startId, acts.getD 0 "") :: consecutiveEdges acts ++
        [(acts.getD (acts.length - 1) "", endId)]
    else []

/-- The loop edges on a cons step: the head pair followed by the loop edges
of the tail. -/
theorem consecutiveEdges_cons (a b : String) (r : List String) :
    consecutiveEdges (a :: b :: r) = (a, b) :: consecutiveEdges (b :: r) := by
  unfold consecutiveEdges
  have hlen : (a :: b :: r).length - 1 = (b :: r).length - 1 + 1 := by
    simp
  rw [hlen, List.range_succ_eq_map, List.map_cons, List.map_map]
  rfl

/-- The edge list of a non-empty activity list, with the final edge to the
end event appended, is the consecutive-pair zip of the path. -/
theorem consecutiveEdges_snoc (e : String) :
    ∀ (t : List String) (a : String),
      consecutiveEdges (a :: t) ++ [((a :: t).getD t.length "", e)] =
        ((a :: t) ++ [e]).zip (t ++ [e]) := by
  intro t
  induction t with
  | nil =>
    intro a
    rfl
  | cons b r ih =>
    intro a
    rw [consecutiveEdges_cons]
    show (a, b) :: (consecutiveEdges (b :: r) ++ [((b :: r).getD r.length "", e)]) =
      ((a :: b :: r) ++ [e]).zip ((b :: r) ++ [e])
    rw [ih b]
    rfl

/-- C2: for every non-empty list of distinct activity labels of length n,
the synthesized flow has exactly n+2 nodes and n+1 edges, the edges are
precisely the consecutive pairs of the path Start, activities in order, End,
the nodes are a permutation of that path, and when the labels avoid the two
reserved event identifiers the node list has no repetition. -/
theorem bpmn_linear_path (acts : List String)
    (hne : acts ≠ []) (hnd : acts.Nodup) :
    (generate_bpmn_xml_content acts).nodes.length = acts.length + 2 ∧
      (generate_bpmn_xml_content acts).edges.length = acts.length + 1 ∧
      (generate_bpmn_xml_content acts).edges =
        (startId :: acts ++ [endId]).zip (acts ++ [endId]) ∧
      List.Perm (generate_bpmn_xml_content acts).nodes (startId :: acts ++ [endId]) ∧
      (startId ∉ acts → endId ∉ acts →
        (generate_bpmn_xml_content acts).nodes.Nodup) := by
  obtain ⟨a, t, rfl⟩ : ∃ a t, acts = a :: t := by
    cases acts with
    | nil => exact absurd rfl hne
    | cons a t => exact ⟨a, t, rfl⟩
  have hpos : 0 < (a :: t).length := by simp
  have hedges : (generate_bpmn_xml_content (a :: t)).edges =
      (startId :: (a :: t) ++ [endId]).zip ((a :: t) ++ [endId]) := by
    show (if 0 < (a :: t).length then
        (startId, (a :: t).getD 0 "") :: consecutiveEdges (a :: t) ++
          [((a :: t).getD ((a :: t).length - 1) "", endId)]
      else []) = _
    rw [if_pos hpos]
    have h0 : (a :: t).getD 0 "" = a := rfl
    have hlast : (a :: t).length - 1 = t.length := by simp
    rw [h0, hlast]
    show (startId, a) :: (consecutiveEdges (a :: t) ++ [((a :: t).getD t.length "", endId)]) = _
    rw [consecutiveEdges_snoc endId t a]
    rfl
  refine ⟨by simp [generate_bpmn_xml_content], ?_, hedges, ?_, ?_⟩
  · rw [hedges]
    simp [List.length_zip]
  · show List.Perm ((a :: t) ++ [startId, endId]) _
    have : (a :: t) ++ [startId, endId] = (a :: t) ++ startId :: [endId] := rfl
    rw [this]
    exact List.perm_middle.trans (List.Perm.cons startId (List.Perm.refl _))
  · intro hs he
    show ((a :: t) ++ [startId, endId]).Nodup
    rw [List.nodup_append]
    refine ⟨hnd, by decide, ?_⟩
    intro x hx hmem
    simp only [List.mem_cons, List.not_mem_nil, or_false] at hmem
    rcases hmem with h | h
    · subst h; exact hs hx
    · subst h; exact he hx

set_option maxRecDepth 4000 in
/-- C2 witness: the scenario activities Receive Order, Approve, Ship give 5
nodes and 4 edges forming the path Start, Receive Order, Approve, Ship,
End. -/
theorem bpmn_linear_path_witness :
    (["Receive Order", "Approve", "Ship"] : List String) ≠ [] ∧
      (["Receive Order", "Approve", "Ship"] : List String).Nodup ∧
      (generate_bpmn_xml_content ["Receive Order", "Approve", "Ship"]).edges =
        [(startId, "Receive Order"), ("Receive Order", "Approve"),
          ("Approve", "Ship"), ("Ship", endId)] ∧
      ((generate_bpmn_xml_content ["Receive Order", "Approve", "Ship"]).nodes.length =
          (["Receive Order", "Approve", "Ship"] : List String).length + 2 ∧
        (generate_bpmn_xml_content ["Receive Order", "Approve", "Ship"]).edges.length =
          (["Receive Order", "Approve", "Ship"] : List String).length + 1 ∧
        (generate_bpmn_xml_content ["Receive Order", "Approve", "Ship"]).edges =
          (startId :: ["Receive Order", "Approve", "Ship"] ++ [endId]).zip
            (["Receive Order", "Approve", "Ship"] ++ [endId]) ∧
        List.Perm (generate_bpmn_xml_content ["Receive Order", "Approve", "Ship"]).nodes
          (startId :: ["Receive Order", "Approve", "Ship"] ++ [endId]) ∧
        (startId ∉ (["Receive Order", "Approve", "Ship"] : List String) →
          endId ∉ (["Receive Order", "Approve", "Ship"] : List String) →
          (generate_bpmn_xml_content ["Receive Order", "Approve", "Ship"]).nodes.Nodup)) :=
  ⟨by decide, by decide, by decide,
    bpmn_linear_path ["Receive Order", "Approve", "Ship"] (by decide) (by decide)⟩

/-- C5: on the empty activity list the synthesizer still creates the start
and the end event but no edge at all: the two nodes are left
disconnected. -/
theorem bpmn_empty_degenerate :
    (generate_bpmn_xml_content []).nodes = [startId, endId] ∧
      (generate_bpmn_xml_content []).nodes.length = 2 ∧
      (generate_bpmn_xml_content []).edges = [] := by
  refine ⟨rfl, rfl, rfl⟩

/-! ## Totality of the synthesizer (C9)

The only fallible spots of `generate_bpmn_xml_content` are the Python list
indexings `activities[0]`, `activities[i]`, `activities[i+1]` and
`activities[-1]`, which raise IndexError when out of range.  The following
embedding makes that partiality explicit and is proved to always succeed
with the graph of the total embedding. -/

/-- A Python list indexing: out of range raises. -/
def getE (acts : List String) (i : Nat) : Except String String :=
  match acts.get? i with
  | some a => Except.ok a
  | none => Except.error "IndexError"

/-- One loop step of src line 105 with explicit indexing errors. -/
def pairE (acts : List String) (i : Nat) : Except String (String × String) :=
  match getE acts i, getE acts (i + 1) with
  | Except.ok a, Except.ok b => Except.ok (a, b)
  | Except.error e, _ => Except.error e
  | _, Except.error e => Except.error e

/-- Error-propagating map, the shape of a Python for loop that appends one
result per iteration and aborts on the first exception. -/
def mapME {α β : Type} (f : α → Except String β) : List α → Except String (List β)
  | [] => Except.ok []
  | a :: as =>
    match f a with
    | Except.error e => Except.error e
    | Except.ok b =>
      match mapME f as with
      | Except.error e => Except.error e
      | Except.ok bs => Except.ok (b :: bs)

/-- Embedding of `generate_bpmn_xml_content` with the partiality of every
list indexing made explicit. -/
def generate_bpmn_xml_contentE (acts : List String) : Except String BpmnFlow :=
  match (if 0 < acts.length then
      match getE acts 0, getE acts (acts.length - 1), mapME (pairE acts) (List.range (acts.length - 1)) with
      | Except.ok a0, Except.ok alast, Except.ok mids =>
        Except.ok ((startId, a0) :: mids ++ [(alast, endId)])
      | Except.error e, _, _ => Except.error e
      | _, Except.error e, _ => Except.error e
      | _, _, Except.error e => Except.error e
    else Except.ok []) with
  | Except.error e => Except.error e
  | Except.ok edges => Except.ok ⟨acts ++ [startId, endId], edges⟩

/-- An in-range Python indexing succeeds with the defaulted lookup of the
total embedding. -/
theorem getE_ok_of_lt (acts : List String) (i : Nat) (h : i < acts.length) :
    getE acts i = Except.ok (acts.getD i "") := by
  unfold getE
  rw [List.get?_eq_get h, List.getD_eq_getElem acts "" h, List.get_eq_getElem]

/-- If every element maps to a success, the error-propagating map succeeds
with the plain map. -/
theorem mapME_ok {α β : Type} (f : α → Except String β) (g : α → β)
    (l : List α) (h : ∀ a ∈ l, f a = Except.ok (g a)) :
    mapME f l = Except.ok (l.map g) := by
  induction l with
  | nil => rfl
  | cons a as ih =>
    rw [mapME, h a (List.mem_cons_self a as), ih fun x hx => h x (List.mem_cons_of_mem a hx)]
    rfl

/-- C9: the synthesizer is total over its input domain: for every activity
list, including the empty one, every indexing performed by the source is in
range and the error-aware embedding succeeds with exactly the graph of the
total embedding. -/
theorem bpmn_total (acts : List String) :
    generate_bpmn_xml_contentE acts = Except.ok (generate_bpmn_xml_content acts) := by
  cases acts with
  | nil => rfl
  | cons a t =>
    have hpos : 0 < (a :: t).length := by simp
    have h0 : getE (a :: t) 0 = Except.ok ((a :: t).getD 0 "") :=
      getE_ok_of_lt _ 0 hpos
    have hlast : getE (a :: t) ((a :: t).length - 1) =
        Except.ok ((a :: t).getD ((a :: t).length - 1) "") := by
      refine getE_ok_of_lt _ _ ?_
      simp
    have hmids : mapME (pairE (a :: t)) (List.range ((a :: t).length - 1)) =
        Except.ok ((List.range ((a :: t).length - 1)).map
          fun i => ((a :: t).getD i "", (a :: t).getD (i + 1) "")) := by
      refine mapME_ok _ _ _ ?_
      intro i hi
      have hi2 : i < (a :: t).length - 1 := List.mem_range.mp hi
      have hia : i < (a :: t).length := lt_of_lt_of_le hi2 (Nat.sub_le _ _)
      have hib : i + 1 < (a :: t).length := by
        have := Nat.add_lt_add_right hi2 1
        simpa [Nat.sub_add_cancel (Nat.succ_le_of_lt hpos)] using this
      rw [pairE, getE_ok_of_lt _ i hia, getE_ok_of_lt _ (i + 1) hib]
    rw [generate_bpmn_xml_contentE, if_pos hpos, h0, hlast, hmids]
    unfold generate_bpmn_xml_content consecutiveEdges
    rw [if_pos hpos]

/-! ## Log normalizer (`load_and_convert_log`, src lines 18-33)

The source delegates CSV reading and timestamp parsing to
`pandas.read_csv(..., parse_dates=["timestamp"])` and the event-log assembly
to `pm4py.convert_to_event_log`; only the column renaming (src lines 26-30)
is original code.  The host date-parsing facility is therefore abstracted as
a `parse` parameter, and the normalizer is modelled from the spec contract
(section 4.1 and section 7) around the renaming taken from the source. -/

/-- Error taxonomy of spec section 7 for the normalizer. -/
inductive NormError
  | malformedInput
  | timestampParse
deriving DecidableEq

/-- One raw tabular row of the input file (spec section 6). -/
structure RawRow where
  case_id : String
  activity : String
  timestamp : String

/-- One normalized event record; field names follow the renamed canonical
schema of src lines 26-30. -/
structure EventRecord (τ : Type) where
  case_concept_name : String
  concept_name : String
  time_timestamp : τ

/-- The column renaming of src lines 26-30: a pure key renaming. -/
def renameColumn (c : String) : String :=
  if c = "case_id" then "case:concept:name"
  else if c = "activity" then "concept:name"
  else if c = "timestamp" then "time:timestamp"
  else c

/-- Modelled from the spec: the parsing and conversion performed inside
`pandas.read_csv` and `pm4py.convert_to_event_log` are third-party and not
in src, only their caller `load_and_convert_log` is.  Per spec sections 4.1
and 7, the identifier and activity of each row are kept as text, the
timestamp is parsed by the host facility `parse`, and an unparseable
timestamp is fatal: no partial log is produced. -/
def load_and_convert_log {τ : Type} (parse : String → Option τ) :
    List RawRow → Except NormError (List (EventRecord τ))
  | [] => Except.ok []
  | r :: rest =>
    match parse r.timestamp with
    | none => Except.error NormError.timestampParse
    | some t =>
      match load_and_convert_log parse rest with
      | Except.error e => Except.error e
      | Except.ok recs =>
        Except.ok (EventRecord.mk r.case_id r.activity t :: recs)

/-- C3: whenever some row of the input carries a timestamp the host facility
cannot parse, the normalizer fails with the timestamp-parse error and
returns no event log at all. -/
theorem load_fails_on_bad_timestamp {τ : Type} (parse : String → Option τ)
    (rows : List RawRow) (h : ∃ r ∈ rows, parse r.timestamp = none) :
    load_and_convert_log parse rows = Except.error NormError.timestampParse := by
  induction rows with
  | nil => rcases h with ⟨r, hr, _⟩; cases hr
  | cons r rest ih =>
    cases hp : parse r.timestamp with
    | none => rw [load_and_convert_log, hp]
    | some t =>
      rcases h with ⟨r2, hr2, hn⟩
      rcases List.mem_cons.mp hr2 with rfl | hmem
      · rw [hp] at hn; cases hn
      · rw [load_and_convert_log, hp, ih ⟨r2, hmem, hn⟩]

/-- Stand-in concrete instance of the host date-parsing facility, used only
by the witnesses: accepts non-empty strings of decimal digits. -/
def parseDigits (s : String) : Option Nat :=
  if !s.data.isEmpty && s.data.all Char.isDigit then
    some (s.data.foldl (fun n c => n * 10 + (c.toNat - 48)) 0)
  else none

/-- C3 witness: a row whose timestamp the facility cannot parse makes the
normalizer fail with the timestamp-parse error. -/
theorem load_fails_on_bad_timestamp_witness :
    (∃ r ∈ ([⟨"c1", "Approve", "not-a-date"⟩] : List RawRow),
        parseDigits r.timestamp = none) ∧
      load_and_convert_log parseDigits
          ([⟨"c1", "Approve", "not-a-date"⟩] : List RawRow) =
        Except.error NormError.timestampParse :=
  ⟨⟨⟨"c1", "Approve", "not-a-date"⟩, List.mem_singleton.mpr rfl, by decide⟩,
    load_fails_on_bad_timestamp parseDigits _
      ⟨⟨"c1", "Approve", "not-a-date"⟩, List.mem_singleton.mpr rfl, by decide⟩⟩

/-- C4: on rows whose timestamps all parse, the normalizer succeeds with a
log of the same record count whose identifier and activity values are
unchanged and whose timestamps are exactly the parses of the input values;
and the schema mapping of the source is the pure key renaming of the three
canonical columns. -/
theorem load_preserves_rows {τ : Type} (parse : String → Option τ)
    (rows : List RawRow) (h : ∀ r ∈ rows, (parse r.timestamp).isSome = true) :
    (∃ recs, load_and_convert_log parse rows = Except.ok recs ∧
        recs.length = rows.length ∧
        List.Forall₂ (fun (er : EventRecord τ) (row : RawRow) =>
          er.case_concept_name = row.case_id ∧ er.concept_name = row.activity ∧
            parse row.timestamp = some er.time_timestamp) recs rows) ∧
      renameColumn "case_id" = "case:concept:name" ∧
      renameColumn "activity" = "concept:name" ∧
      renameColumn "timestamp" = "time:timestamp" := by
  refine ⟨?_, rfl, rfl, rfl⟩
  induction rows with
  | nil => exact ⟨[], rfl, rfl, List.Forall₂.nil⟩
  | cons r rest ih =>
    have hr := h r (List.mem_cons_self r rest)
    rcases Option.isSome_iff_exists.mp hr with ⟨t, ht⟩
    rcases ih (fun x hx => h x (List.mem_cons_of_mem r hx)) with ⟨recs, hok, hlen, hall⟩
    refine ⟨EventRecord.mk r.case_id r.activity t :: recs, ?_, ?_, ?_⟩
    · rw [load_and_convert_log, ht, hok]
    · simp [hlen]
    · exact List.Forall₂.cons ⟨rfl, rfl, ht⟩ hall

/-- C4 witness: two concrete rows with parseable timestamps round-trip
through the normalizer. -/
theorem load_preserves_rows_witness :
    (∀ r ∈ ([⟨"c1", "Approve", "100"⟩, ⟨"c2", "Ship", "250"⟩] : List RawRow),
        (parseDigits r.timestamp).isSome = true) ∧
      ((∃ recs, load_and_convert_log parseDigits
            ([⟨"c1", "Approve", "100"⟩, ⟨"c2", "Ship", "250"⟩] : List RawRow) =
            Except.ok recs ∧
          recs.length =
            ([⟨"c1", "Approve", "100"⟩, ⟨"c2", "Ship", "250"⟩] : List RawRow).length ∧
          List.Forall₂ (fun (er : EventRecord Nat) (row : RawRow) =>
            er.case_concept_name = row.case_id ∧ er.concept_name = row.activity ∧
              parseDigits row.timestamp = some er.time_timestamp) recs
            ([⟨"c1", "Approve", "100"⟩, ⟨"c2", "Ship", "250"⟩] : List RawRow)) ∧
        renameColumn "case_id" = "case:concept:name" ∧
        renameColumn "activity" = "concept:name" ∧
        renameColumn "timestamp" = "time:timestamp") :=
  ⟨by intro r hr; fin_cases hr <;> decide,
    load_preserves_rows parseDigits _ (by intro r hr; fin_cases hr <;> decide)⟩

/-! ## Bottleneck list builder (`identify_bottlenecks`, src lines 64-79)

The external engine result `bottleneck_analysis.apply` is an opaque mapping
from activity names to metric dictionaries; it is embedded as an association
list in iteration order.  The formatting loop and the placeholder fallback
are the original code of src lines 73-79. -/

/-- The two metric entries read from one engine result, already formatted as
text; a missing entry falls back to `N/A` via `dict.get` (src line 76). -/
structure BottleneckMetrics where
  avg_waiting_time : Option String
  avg_service_time : Option String

/-- The description line built for one bottleneck entry (src line 76). -/
def bottleneckLine (activity : String) (m : BottleneckMetrics) : String :=
  "Atividade: " ++ activity ++ ", Tempo Médio de Espera: " ++
    m.avg_waiting_time.getD "N/A" ++ ", Tempo Médio de Serviço: " ++
    m.avg_service_time.getD "N/A"

/-- Placeholder line returned when the engine reports no bottleneck
(src line 78). -/
def noBottleneckInfoLine : String := "Nenhum gargalo significativo identificado."

/-- Embedding of `ProcessAnalyzer.identify_bottlenecks` (src lines 64-79),
parameterized on the engine result. -/
def identify_bottlenecks (bottlenecks : List (String × BottleneckMetrics)) : List String :=
  if bottlenecks.isEmpty then [noBottleneckInfoLine]
  else bottlenecks.map fun p => bottleneckLine p.1 p.2

/-- C10: the bottleneck list builder always returns at least one line; on
the empty engine result it returns exactly the placeholder line; and
consequently the report templater, fed through the pipeline of the main
block, always takes its non-empty branch: the empty-input branch is
unreachable from the script itself. -/
theorem identify_bottlenecks_nonempty (bmap : List (String × BottleneckMetrics)) :
    identify_bottlenecks bmap ≠ [] ∧
      (bmap = [] → identify_bottlenecks bmap = [noBottleneckInfoLine]) ∧
      generate_sankhya_flow_script (identify_bottlenecks bmap) =
        header1 ++ header2 ++
          (gargalosHeader ++ bottlenecksBody (identify_bottlenecks bmap)) ++
          footerLine := by
  have hne : (identify_bottlenecks bmap).isEmpty = false := by
    cases bmap with
    | nil => rfl
    | cons p rest => rfl
  refine ⟨?_, ?_, ?_⟩
  · intro hempty
    rw [hempty] at hne
    cases hne
  · intro hb
    subst hb
    rfl
  · rw [generate_sankhya_flow_script, hne]
    simp

/-- C10 witness: on the empty engine result the builder returns exactly the
placeholder line, hence a non-empty list. -/
theorem identify_bottlenecks_nonempty_witness :
    identify_bottlenecks [] ≠ [] ∧
      identify_bottlenecks [] = [noBottleneckInfoLine] :=
  ⟨(identify_bottlenecks_nonempty []).1,
    (identify_bottlenecks_nonempty []).2.1 rfl⟩

end ProcessAnalyzer
